import Mathlib

/-!
Shallow embedding of the Rubberband build-guide audio engine.

The definitions below are translated from the C++ sources of the repository:

* `TransportState`, `changeState`, `playButtonClicked`, `stopButtonClicked`
  model the transport state machine of
  `Apple/MultiTrackPlayer/Source/MainComponent.cpp` (the Example-Project
  variant is the single-track degenerate case of the same machine).
* `mixTracksIntoBuffer` models `MainComponent::mixTracksIntoBuffer`.
* `feedLoop`, `processBlockEx`, `processBlockTT`, `getNextAudioBlockEx`
  model `TimePitchProcessor::processBlock` (Example-Project feeds until
  `available < outSamples`, TransportTimeLine until
  `available < outSamples * 2`) and `MainComponent::getNextAudioBlock`.
  The external RubberBand stretcher is abstracted by `StretchEnv`: `avail k`
  is the value of `stretcher->available()` after `k` calls to
  `stretcher->process(...)` inside one render call, and `outSample` is the
  stream of samples that `stretcher->retrieve(...)` writes.
* `cDiv`, `cMod`, `cIntTrunc` model C++ integer division, the `%` operator
  and the `(int)` cast of a floating value (truncation toward zero).
* `getFormattedTimeline`, `getAdjustedTempo`, `ttTimerAdvance` model the
  timeline math of `TransportTimeLine/Source/MainComponent.cpp`.
* `AdvState`, `beatIndex`, `checkQueuedTracks`, `advTimelineStep`,
  `timerCallbackAdv`, `tempoSliderChanged` model the tempo routing and the
  quantized track starts of
  `Apple/MultiTrackPlayer(advance)/Source/MainComponent.cpp`.

Audio samples and the double-precision control values are modelled as
rational numbers, machine integers as `Int`/`Nat`.
-/

/-- Transport states of the playback state machine (`TransportState` enum in
`MainComponent.h`). -/
inductive TransportState where
  | Stopped
  | Starting
  | Playing
  | Pausing
  | Paused
  | Stopping
  deriving DecidableEq

/-- Rank used to justify the bounded cascade of `changeState`: the transient
states `Starting`, `Pausing`, `Stopping` recurse into a settled state once. -/
def transRank : TransportState → Nat
  | .Starting => 1
  | .Pausing => 1
  | .Stopping => 1
  | _ => 0

/-- Settled transport states: the ones an external caller can observe after a
command returns. -/
def isSettled (s : TransportState) : Prop :=
  s = .Stopped ∨ s = .Playing ∨ s = .Paused

instance (s : TransportState) : Decidable (isSettled s) := by
  unfold isSettled
  infer_instance

/-- Per-track playback state touched by the transport machine
(`Track` in `MainComponent.h`): transport running flag, playback position,
loop flag of source and transport, and the `wasLooping` bookkeeping flag. -/
structure EngTrack where
  playing : Bool
  pos : ℚ
  looping : Bool
  wasLooping : Bool
  deriving DecidableEq

/-- Engine state seen by the transport state machine: current state, the
global loop toggle, and the track list. -/
structure Engine where
  state : TransportState
  loopToggleOn : Bool
  tracks : List EngTrack
  deriving DecidableEq

/-- Side effect of the `Starting` branch of `changeState` on one track:
apply the loop toggle to source and transport, record `wasLooping` when the
toggle is on, and start the transport. -/
def startedTrack (loopOn : Bool) (t : EngTrack) : EngTrack :=
  { t with
    looping := loopOn
    wasLooping := if loopOn then true else t.wasLooping
    playing := true }

/-- Side effect of the `Pausing` and `Stopping` branches on one track:
`transportSource.stop()` (position retained). -/
def stoppedTrack (t : EngTrack) : EngTrack :=
  { t with playing := false }

/-- Side effect of the `Stopped` branch on one track:
`transportSource.setPosition(0.0)`. -/
def resetTrack (t : EngTrack) : EngTrack :=
  { t with pos := 0 }

/-- `MainComponent::changeState`: a no-op when the new state equals the
current one; otherwise the state is updated and the per-state side effects
run, with the transient states cascading synchronously
(`Starting` to `Playing`, `Pausing` to `Paused`, `Stopping` to `Stopped`). -/
def changeState (e : Engine) (newState : TransportState) : Engine :=
  if e.state = newState then e
  else
    let e1 : Engine := { e with state := newState }
    match newState with
    | .Stopped => { e1 with tracks := e1.tracks.map resetTrack }
    | .Starting =>
        changeState
          { e1 with tracks := e1.tracks.map (startedTrack e1.loopToggleOn) } .Playing
    | .Playing => e1
    | .Pausing =>
        changeState { e1 with tracks := e1.tracks.map stoppedTrack } .Paused
    | .Paused => e1
    | .Stopping =>
        changeState { e1 with tracks := e1.tracks.map stoppedTrack } .Stopped
termination_by transRank newState
decreasing_by all_goals simp [transRank]

/-- `MainComponent::playButtonClicked`: from `Stopped` or `Paused` go to
`Starting`, from `Playing` go to `Pausing`. -/
def playButtonClicked (e : Engine) : Engine :=
  if e.state = .Stopped ∨ e.state = .Paused then changeState e .Starting
  else if e.state = .Playing then changeState e .Pausing
  else e

/-- `MainComponent::stopButtonClicked`: from `Paused` go directly to
`Stopped`, otherwise go to `Stopping`. -/
def stopButtonClicked (e : Engine) : Engine :=
  if e.state = .Paused then changeState e .Stopped
  else changeState e .Stopping

/-- External transport commands of the control surface. -/
inductive TransportCmd where
  | play
  | stop
  deriving DecidableEq

/-- Apply one transport command. -/
def applyCmd (e : Engine) : TransportCmd → Engine
  | .play => playButtonClicked e
  | .stop => stopButtonClicked e

/-- Apply a sequence of transport commands in order. -/
def applyCmds (e : Engine) (cs : List TransportCmd) : Engine :=
  cs.foldl applyCmd e

/-- Per-track data consumed by `mixTracksIntoBuffer`: the routing classifier,
mute flag, volume, and the audio the track source delivers for the current
block (sample index to value; `transportSource.getNextAudioBlock` always
fills the whole requested region). -/
structure MixTrack where
  isPercussive : Bool
  isMuted : Bool
  currentVolume : ℚ
  sourceSample : Nat → ℚ

/-- Effective gain of a track inside the mixer:
`track->isMuted ? 0.0f : track->currentVolume`. -/
def effVolume (t : MixTrack) : ℚ :=
  if t.isMuted then 0 else t.currentVolume

/-- `buffer.addFrom(..., volume)`: accumulate the gain-scaled source block
into the mix buffer, sample by sample. -/
def addInto (buf src : List ℚ) (gain : ℚ) : List ℚ :=
  List.zipWith (fun b s => b + gain * s) buf src

/-- Loop body of `MainComponent::mixTracksIntoBuffer`: a track whose
`isPercussive` flag does not match the predicate is skipped by the
`continue`; a matching track has one block read from its source and
accumulated into the buffer scaled by the effective gain. -/
def mixStep (percussive : Bool) (numSamples : Nat) (buf : List ℚ)
    (t : MixTrack) : List ℚ :=
  if t.isPercussive ≠ percussive then buf
  else addInto buf ((List.range numSamples).map t.sourceSample) (effVolume t)

/-- `MainComponent::mixTracksIntoBuffer(percussive, buffer)`: clear the
buffer, then fold the loop body over the track list. -/
def mixTracksIntoBuffer (percussive : Bool) (tracks : List MixTrack)
    (numSamples : Nat) : List ℚ :=
  tracks.foldl (mixStep percussive numSamples) (List.replicate numSamples 0)

/-- Abstraction of the external RubberBand stretcher inside one render call:
`avail k` is `stretcher->available()` after `k` calls to
`stretcher->process(...)`, and `outSample` is the stream of processed
samples that `stretcher->retrieve(...)` writes out. -/
structure StretchEnv where
  avail : Nat → Nat
  outSample : Nat → ℚ

/-- The feed loop of `TimePitchProcessor::processBlock`: while the available
output is below the threshold, pull one input chunk and feed it to the
stretcher (one `process` call per iteration). `k` counts the `process`
calls performed so far; `fuel` bounds the observation depth of the
otherwise unbounded C++ `while` loop. Returns the iteration count at which
the loop exits, or `none` when the threshold is not reached within `fuel`
further iterations. -/
def feedLoop (avail : Nat → Nat) (threshold : Nat) : Nat → Nat → Option Nat
  | k, 0 => if threshold ≤ avail k then some k else none
  | k, fuel + 1 =>
      if threshold ≤ avail k then some k
      else feedLoop avail threshold (k + 1) fuel

/-- Result of one `processBlock` call: number of feed iterations, the value
of `available()` at the moment of extraction, the number of samples
`retrieve` reports written (RubberBand writes `min(requested, available)`),
and the samples written into the output buffer. -/
structure RenderOut where
  iterations : Nat
  availAtRetrieve : Nat
  retrieved : Nat
  samples : List ℚ
  deriving DecidableEq

/-- `TimePitchProcessor::processBlock` of the Example-Project variant:
if the stretcher or the source is missing, clear the output buffer and
return; otherwise feed input chunks while `available() < outSamples`, then
retrieve `outSamples` samples. -/
def processBlockEx (preparedAndSource : Bool) (env : StretchEnv)
    (outSamples fuel : Nat) : Option RenderOut :=
  if preparedAndSource = false then
    some { iterations := 0, availAtRetrieve := 0, retrieved := 0,
           samples := List.replicate outSamples 0 }
  else
    (feedLoop env.avail outSamples 0 fuel).map fun k =>
      { iterations := k
        availAtRetrieve := env.avail k
        retrieved := min outSamples (env.avail k)
        samples := (List.range (min outSamples (env.avail k))).map env.outSample }

/-- `TimePitchProcessor::processBlock` of the TransportTimeLine variant:
identical except that the feed loop runs while
`available() < outSamples * 2` (warm-up safety margin). -/
def processBlockTT (prepared : Bool) (env : StretchEnv)
    (outSamples fuel : Nat) : Option RenderOut :=
  if prepared = false then
    some { iterations := 0, availAtRetrieve := 0, retrieved := 0,
           samples := List.replicate outSamples 0 }
  else
    (feedLoop env.avail (outSamples * 2) 0 fuel).map fun k =>
      { iterations := k
        availAtRetrieve := env.avail k
        retrieved := min outSamples (env.avail k)
        samples := (List.range (min outSamples (env.avail k))).map env.outSample }

/-- `MainComponent::getNextAudioBlock` of the Example-Project variant: when
there is no reader source or the transport is not `Playing`, the output
region is cleared; otherwise the block is produced by
`timePitchProcessor.processBlock`. -/
def getNextAudioBlockEx (hasSource : Bool) (st : TransportState)
    (prepared : Bool) (env : StretchEnv) (numSamples fuel : Nat) :
    Option (List ℚ) :=
  if hasSource = false ∨ st ≠ .Playing then some (List.replicate numSamples 0)
  else (processBlockEx (prepared && hasSource) env numSamples fuel).map
    RenderOut.samples

/-- C++ integer division: quotient truncated toward zero. -/
def cDiv (a b : ℤ) : ℤ :=
  Int.sign a * Int.sign b * Int.ofNat (a.natAbs / b.natAbs)

/-- C++ `%` on integers: remainder carrying the sign of the dividend. -/
def cMod (a b : ℤ) : ℤ :=
  Int.sign a * Int.ofNat (a.natAbs % b.natAbs)

/-- C++ `(int)` cast of a real value: truncation toward zero. -/
def cIntTrunc (q : ℚ) : ℤ :=
  cDiv q.num (q.den : ℤ)

/-- Left-pad a string with `0` characters up to the given width
(`juce::String::paddedLeft`). -/
def padLeftZero (s : String) (w : Nat) : String :=
  String.mk (List.replicate (w - s.length) '0') ++ s

/-- Decimal rendering of an integer (`juce::String(int)`). -/
def intToStr (i : ℤ) : String :=
  if i < 0 then "-" ++ Nat.repr i.natAbs else Nat.repr i.natAbs

/-- The bar, beat and time fields produced by
`MainComponent::getFormattedTimeline`. -/
structure TimelineDisplay where
  bar : ℤ
  beatInBar : ℤ
  timeText : String
  deriving DecidableEq

/-- `MainComponent::getFormattedTimeline(seconds, bpm)`:
`secondsPerBeat = 60 / bpm`, `secondsPerBar = secondsPerBeat * beatsPerBar`,
`bar = (int)(seconds / secondsPerBar) + 1`,
`beat = ((int)(seconds / secondsPerBeat) % beatsPerBar) + 1`,
`millis = ((int)(seconds * 1000)) % 1000`, and the time text
`(int)seconds / 60 : (int)seconds % 60 . millis` with zero padding. -/
def getFormattedTimeline (seconds bpm : ℚ) (beatsPerBar : ℤ) :
    TimelineDisplay :=
  let secondsPerBeat : ℚ := 60 / bpm
  let secondsPerBar : ℚ := secondsPerBeat * (beatsPerBar : ℚ)
  { bar := cIntTrunc (seconds / secondsPerBar) + 1
    beatInBar := cMod (cIntTrunc (seconds / secondsPerBeat)) beatsPerBar + 1
    timeText :=
      intToStr (cDiv (cIntTrunc seconds) 60) ++ ":" ++
        padLeftZero (intToStr (cMod (cIntTrunc seconds) 60)) 2 ++ "." ++
        padLeftZero (intToStr (cMod (cIntTrunc (seconds * 1000)) 1000)) 3 }

/-- `MainComponent::getAdjustedTempo` of the TransportTimeLine variant: read
the slider, clamp values at or below zero to `1.0`, and multiply the
reference tempo by the ratio. -/
def getAdjustedTempo (originalTempo sliderValue : ℚ) : ℚ :=
  let tr : ℚ := if sliderValue ≤ 0 then 1 else sliderValue
  originalTempo * tr

/-- Timeline advancement of `MainComponent::timerCallback` in the
TransportTimeLine variant: the slider value is clamped to `1.0` when at or
below zero, and the elapsed time grows by `realDelta * ratio`. -/
def ttTimerAdvance (timelineSeconds realDelta sliderValue : ℚ) : ℚ :=
  let tr : ℚ := if sliderValue ≤ 0 then 1 else sliderValue
  timelineSeconds + realDelta * tr

/-- Per-track state of the advance variant relevant to quantized starts:
the `queuedToPlay` flag, the transport running flag, the source loop state
and the per-track loop toggle. -/
structure AdvTrack where
  queuedToPlay : Bool
  playing : Bool
  looping : Bool
  loopToggleOn : Bool
  deriving DecidableEq

/-- State of the advance variant: the free-running timeline plus the track
list. `sliderValue` is the current raw value of the shared tempo slider. -/
structure AdvState where
  transportRunning : Bool
  timelineSeconds : ℚ
  originalTempo : ℚ
  beatsPerBar : ℤ
  sliderValue : ℚ
  tracks : List AdvTrack
  deriving DecidableEq

/-- The beat index computed at the top of
`MainComponent::checkQueuedTracks`:
`((int)(timelineSeconds / (60.0 / originalTempo)) % beatsPerBar) + 1`. -/
def beatIndex (s : AdvState) : ℤ :=
  cMod (cIntTrunc (s.timelineSeconds / (60 / s.originalTempo))) s.beatsPerBar + 1

/-- Side effect on one queued track when the bar boundary is reached: apply
the loop toggle, start the transport, clear the queued flag. -/
def startQueuedTrack (t : AdvTrack) : AdvTrack :=
  { t with looping := t.loopToggleOn, playing := true, queuedToPlay := false }

/-- `MainComponent::checkQueuedTracks`: when the computed beat index equals
1, start every queued track and clear its flag; otherwise do nothing. -/
def checkQueuedTracks (s : AdvState) : AdvState :=
  if beatIndex s = 1 then
    { s with tracks := s.tracks.map fun t =>
        if t.queuedToPlay then startQueuedTrack t else t }
  else s

/-- Timeline advancement inside `MainComponent::timerCallback` of the
advance variant: when the transport is running the elapsed time grows by
`realDelta * tempoSlider.getValue()` — the raw slider value, no clamp. -/
def advTimelineStep (s : AdvState) (realDelta : ℚ) : AdvState :=
  if s.transportRunning then
    { s with timelineSeconds := s.timelineSeconds + realDelta * s.sliderValue }
  else s

/-- `MainComponent::timerCallback` of the advance variant: advance the
timeline (when running), then run `checkQueuedTracks` exactly once. -/
def timerCallbackAdv (s : AdvState) (realDelta : ℚ) : AdvState :=
  checkQueuedTracks (advTimelineStep s realDelta)

/-- A run of consecutive timer callbacks with the given wall-clock deltas. -/
def runTicks (s : AdvState) (deltas : List ℚ) : AdvState :=
  deltas.foldl timerCallbackAdv s

/-- Whether some tick of the run observes beat index 1 (evaluated on the
state right after the timeline advancement of that tick). -/
def traceHitsBar : AdvState → List ℚ → Bool
  | _, [] => false
  | s, d :: ds =>
      let s1 := advTimelineStep s d
      (decide (beatIndex s1 = 1)) || traceHitsBar s1 ds

/-- Tempo state of the two time-stretch processors of the advance variant. -/
structure ProcPair where
  drumTempo : ℚ
  musicalTempo : ℚ
  deriving DecidableEq

/-- `tempoSlider.onValueChange` of the advance variant: compute
`inverted = 2.0f - value` and apply it to both processors. -/
def tempoSliderChanged (v : ℚ) (p : ProcPair) : ProcPair :=
  let inverted : ℚ := 2 - v
  { p with drumTempo := inverted, musicalTempo := inverted }

/-! Bridging lemmas between the C-style integer operations and the
mathematical floor, Euclidean division and modulo. -/

/-- On nonnegative operands the C-style truncating division agrees with
division on `Int`. -/
theorem cDiv_eq_ediv {a b : ℤ} (ha : 0 ≤ a) (hb : 0 ≤ b) : cDiv a b = a / b := by
  rcases ha.lt_or_eq with ha1 | ha1
  · rcases hb.lt_or_eq with hb1 | hb1
    · rw [cDiv, Int.sign_eq_one_of_pos ha1, Int.sign_eq_one_of_pos hb1, one_mul,
        one_mul, Int.ofNat_eq_natCast, Int.natCast_div, Int.natAbs_of_nonneg ha,
        Int.natAbs_of_nonneg hb]
    · subst hb1
      simp [cDiv]
  · subst ha1
    simp [cDiv]

/-- On nonnegative operands the C-style `%` agrees with `emod` on `Int`. -/
theorem cMod_eq_emod {a b : ℤ} (ha : 0 ≤ a) (hb : 0 ≤ b) : cMod a b = a % b := by
  rcases ha.lt_or_eq with ha1 | ha1
  · rw [cMod, Int.sign_eq_one_of_pos ha1, one_mul, Int.ofNat_eq_natCast,
      Int.natCast_mod, Int.natAbs_of_nonneg ha, Int.natAbs_of_nonneg hb]
  · subst ha1
    simp [cMod]

/-- On a nonnegative rational the C-style `(int)` cast is the floor. -/
theorem cIntTrunc_eq_floor {q : ℚ} (hq : 0 ≤ q) : cIntTrunc q = ⌊q⌋ := by
  rw [cIntTrunc, Rat.floor_def]
  exact cDiv_eq_ediv (Rat.num_nonneg.mpr hq) (Int.natCast_nonneg _)

/-- Concrete evaluation rule for the `(int)` cast of a nonnegative rational:
it returns the unique integer `z` with `z ≤ q < z + 1`. -/
theorem cIntTrunc_eq_of {q : ℚ} {z : ℤ} (hq : 0 ≤ q) (h1 : (z : ℚ) ≤ q)
    (h2 : q < z + 1) : cIntTrunc q = z := by
  rw [cIntTrunc_eq_floor hq]
  exact Int.floor_eq_iff.mpr ⟨h1, by exact_mod_cast h2⟩

/-! Lemmas about the feed loop of `TimePitchProcessor::processBlock`. -/

/-- When the feed loop exits, the stretcher reports at least the threshold
number of available samples. -/
theorem feedLoop_avail {avail : Nat → Nat} {threshold : Nat} :
    ∀ (fuel k j : Nat), feedLoop avail threshold k fuel = some j →
      threshold ≤ avail j := by
  intro fuel
  induction fuel with
  | zero =>
      intro k j h
      simp only [feedLoop] at h
      split at h
      · injection h with h2
        subst h2
        assumption
      · exact absurd h (by simp)
  | succ f ih =>
      intro k j h
      simp only [feedLoop] at h
      split at h
      · injection h with h2
        subst h2
        assumption
      · exact ih (k + 1) j h

/-- On a stretcher that never reports any available output, the feed loop
never exits, whatever the iteration budget. -/
theorem feedLoop_stuck_on_empty (threshold : Nat) (ht : 0 < threshold) :
    ∀ (fuel k : Nat), feedLoop (fun _ => 0) threshold k fuel = none := by
  intro fuel
  induction fuel with
  | zero =>
      intro k
      simp only [feedLoop]
      rw [if_neg (by omega)]
  | succ f ih =>
      intro k
      simp only [feedLoop]
      rw [if_neg (by omega)]
      exact ih (k + 1)

/-- Claim C1: in every render call of the time-stretch processor that
completes on a prepared processor (both the Example-Project variant, whose
feed threshold is `outSamples`, and the TransportTimeLine variant, whose
threshold is `outSamples * 2`), at the moment of extraction the stretcher
reports at least `outSamples` available samples, and exactly `outSamples`
samples are extracted into the output buffer. -/
theorem claim1_processBlock_threshold_and_exact_extraction
    (env : StretchEnv) (outSamples fuel : Nat) (r1 r2 : RenderOut)
    (h1 : processBlockEx true env outSamples fuel = some r1)
    (h2 : processBlockTT true env outSamples fuel = some r2) :
    (outSamples ≤ r1.availAtRetrieve ∧ r1.retrieved = outSamples ∧
      r1.samples.length = outSamples) ∧
    (outSamples ≤ r2.availAtRetrieve ∧ r2.retrieved = outSamples ∧
      r2.samples.length = outSamples) := by
  constructor
  · simp only [processBlockEx] at h1
    rw [if_neg (by simp)] at h1
    rw [Option.map_eq_some'] at h1
    obtain ⟨k, hk, hr⟩ := h1
    subst hr
    have hth : outSamples ≤ env.avail k := feedLoop_avail fuel 0 k hk
    refine ⟨hth, min_eq_left hth, ?_⟩
    simp [min_eq_left hth]
  · simp only [processBlockTT] at h2
    rw [if_neg (by simp)] at h2
    rw [Option.map_eq_some'] at h2
    obtain ⟨k, hk, hr⟩ := h2
    subst hr
    have hth2 : outSamples * 2 ≤ env.avail k := feedLoop_avail fuel 0 k hk
    have hth : outSamples ≤ env.avail k := by omega
    refine ⟨hth, min_eq_left hth, ?_⟩
    simp [min_eq_left hth]

/-- Witness for claim C1 at a concrete stretcher behavior
(`available() = 5 * k` after `k` feed iterations) and a four-sample block. -/
theorem claim1_witness :
    ((4 ≤ (⟨1, 5, 4, [0, 0, 0, 0]⟩ : RenderOut).availAtRetrieve ∧
        (⟨1, 5, 4, [0, 0, 0, 0]⟩ : RenderOut).retrieved = 4 ∧
        (⟨1, 5, 4, [0, 0, 0, 0]⟩ : RenderOut).samples.length = 4) ∧
      (4 ≤ (⟨2, 10, 4, [0, 0, 0, 0]⟩ : RenderOut).availAtRetrieve ∧
        (⟨2, 10, 4, [0, 0, 0, 0]⟩ : RenderOut).retrieved = 4 ∧
        (⟨2, 10, 4, [0, 0, 0, 0]⟩ : RenderOut).samples.length = 4)) :=
  claim1_processBlock_threshold_and_exact_extraction
    ⟨fun k => 5 * k, fun _ => 0⟩ 4 10
    ⟨1, 5, 4, [0, 0, 0, 0]⟩ ⟨2, 10, 4, [0, 0, 0, 0]⟩ (by decide) (by decide)

/-- Claim C2 (code bug): the feed loop of `processBlock` has no iteration
bound. On a stretcher whose `available()` count never reaches the feed
threshold — the failing input `avail = fun k => 0` with one requested output
sample — the `while` loop never exits, whatever iteration budget is
observed, in both variants; `processBlock` contains no silence padding of a
short output and no underrun flag. -/
theorem claim2_feed_loop_never_exits (fuel : Nat) :
    processBlockEx true ⟨fun _ => 0, fun _ => 0⟩ 1 fuel = none ∧
    processBlockTT true ⟨fun _ => 0, fun _ => 0⟩ 1 fuel = none := by
  constructor
  · simp only [processBlockEx]
    rw [if_neg (by simp), feedLoop_stuck_on_empty 1 (by omega) fuel 0]
    rfl
  · simp only [processBlockTT]
    rw [if_neg (by simp), feedLoop_stuck_on_empty (1 * 2) (by omega) fuel 0]
    rfl

/-! Characterizations of the `changeState` cascades. -/

/-- Entering `Starting` from any other state runs the start side effect on
every track and cascades synchronously to `Playing`. -/
theorem changeState_Starting (e : Engine) (h : e.state ≠ .Starting) :
    changeState e .Starting =
      { state := .Playing, loopToggleOn := e.loopToggleOn,
        tracks := e.tracks.map (startedTrack e.loopToggleOn) } := by
  rw [changeState, if_neg h]
  dsimp only
  rw [changeState, if_neg (by simp)]

/-- Entering `Pausing` from any other state stops every track (position
retained) and cascades synchronously to `Paused`. -/
theorem changeState_Pausing (e : Engine) (h : e.state ≠ .Pausing) :
    changeState e .Pausing =
      { state := .Paused, loopToggleOn := e.loopToggleOn,
        tracks := e.tracks.map stoppedTrack } := by
  rw [changeState, if_neg h]
  dsimp only
  rw [changeState, if_neg (by simp)]

/-- Entering `Stopping` from any other state stops every track and cascades
synchronously to `Stopped`, which also resets every track position. -/
theorem changeState_Stopping (e : Engine) (h : e.state ≠ .Stopping) :
    changeState e .Stopping =
      { state := .Stopped, loopToggleOn := e.loopToggleOn,
        tracks := (e.tracks.map stoppedTrack).map resetTrack } := by
  rw [changeState, if_neg h]
  dsimp only
  rw [changeState, if_neg (by simp)]

/-- Entering `Stopped` from any other state resets every track position. -/
theorem changeState_Stopped (e : Engine) (h : e.state ≠ .Stopped) :
    changeState e .Stopped =
      { state := .Stopped, loopToggleOn := e.loopToggleOn,
        tracks := e.tracks.map resetTrack } := by
  rw [changeState, if_neg h]

/-- Claim C3 counterexample: from `Stopped`, issuing the play command twice
does not equal issuing it once — the second play toggles the transport into
`Paused` and stops the track, so state and side effects differ. -/
theorem claim3_counterexample :
    playButtonClicked (playButtonClicked
        ⟨.Stopped, false, [⟨false, 0, false, false⟩]⟩) ≠
      playButtonClicked ⟨.Stopped, false, [⟨false, 0, false, false⟩]⟩ := by
  simp [playButtonClicked, changeState, startedTrack, stoppedTrack]

/-- Claim C3 (amended): from `Stopped` the first play command cascades
`Starting` to `Playing` and starts every track with the loop toggle
applied; a second play command is a play/pause toggle, not idempotent: it
cascades `Pausing` to `Paused` and stops every track, retaining
positions. -/
theorem claim3_play_twice_toggles (e : Engine) (h : e.state = .Stopped) :
    (playButtonClicked e).state = .Playing
    ∧ (playButtonClicked e).tracks = e.tracks.map (startedTrack e.loopToggleOn)
    ∧ (playButtonClicked (playButtonClicked e)).state = .Paused
    ∧ (playButtonClicked (playButtonClicked e)).tracks =
        (playButtonClicked e).tracks.map stoppedTrack := by
  have h1 : playButtonClicked e =
      { state := .Playing, loopToggleOn := e.loopToggleOn,
        tracks := e.tracks.map (startedTrack e.loopToggleOn) } := by
    have hc : e.state = .Stopped ∨ e.state = .Paused := Or.inl h
    simp only [playButtonClicked, if_pos hc]
    rw [changeState_Starting e (by rw [h]; simp)]
  have h2 : playButtonClicked (playButtonClicked e) =
      { state := .Paused, loopToggleOn := e.loopToggleOn,
        tracks := (e.tracks.map (startedTrack e.loopToggleOn)).map
          stoppedTrack } := by
    rw [h1]
    simp only [playButtonClicked]
    rw [if_neg (by simp), if_pos trivial]
    rw [changeState_Pausing _ (by simp)]
  refine ⟨by rw [h1], by rw [h1], by rw [h2], by rw [h2, h1]⟩

/-- Witness for claim C3 at a concrete one-track engine in `Stopped`. -/
theorem claim3_witness :
    (playButtonClicked
        (⟨.Stopped, false, [⟨false, 0, false, false⟩]⟩ : Engine)).state =
      .Playing
    ∧ (playButtonClicked
        (⟨.Stopped, false, [⟨false, 0, false, false⟩]⟩ : Engine)).tracks =
        ([⟨false, 0, false, false⟩] : List EngTrack).map (startedTrack false)
    ∧ (playButtonClicked (playButtonClicked
        (⟨.Stopped, false, [⟨false, 0, false, false⟩]⟩ : Engine))).state =
      .Paused
    ∧ (playButtonClicked (playButtonClicked
        (⟨.Stopped, false, [⟨false, 0, false, false⟩]⟩ : Engine))).tracks =
        (playButtonClicked
          (⟨.Stopped, false, [⟨false, 0, false, false⟩]⟩ : Engine)).tracks.map
          stoppedTrack :=
  claim3_play_twice_toggles ⟨.Stopped, false, [⟨false, 0, false, false⟩]⟩ rfl

/-- Every single transport command maps a settled state to a settled state. -/
theorem applyCmd_settled (e : Engine) (c : TransportCmd)
    (h : isSettled e.state) : isSettled (applyCmd e c).state := by
  have hst : e.state = .Stopped ∨ e.state = .Playing ∨ e.state = .Paused := h
  cases c with
  | play =>
      simp only [applyCmd, playButtonClicked]
      rcases hst with h1 | h1 | h1
      · rw [if_pos (Or.inl h1), changeState_Starting e (by rw [h1]; simp)]
        simp [isSettled]
      · rw [if_neg (by rw [h1]; simp), if_pos h1,
          changeState_Pausing e (by rw [h1]; simp)]
        simp [isSettled]
      · rw [if_pos (Or.inr h1), changeState_Starting e (by rw [h1]; simp)]
        simp [isSettled]
  | stop =>
      simp only [applyCmd, stopButtonClicked]
      by_cases hp : e.state = .Paused
      · rw [if_pos hp, changeState_Stopped e (by rw [hp]; simp)]
        simp [isSettled]
      · rw [if_neg hp, changeState_Stopping e
          (by rcases hst with h1 | h1 | h1 <;> rw [h1] <;> simp)]
        simp [isSettled]

/-- Every sequence of transport commands maps a settled state to a settled
state. -/
theorem applyCmds_settled :
    ∀ (cs : List TransportCmd) (e : Engine), isSettled e.state →
      isSettled (applyCmds e cs).state := by
  intro cs
  induction cs with
  | nil => intro e h; exact h
  | cons c cs2 ih => intro e h; exact ih (applyCmd e c) (applyCmd_settled e c h)

/-- Claim C4: starting from any externally settled state, after any sequence
of play and stop commands the observable transport state is settled (one of
`Stopped`, `Playing`, `Paused`), and the transient states cascade
synchronously within the same call: entering `Starting` ends in `Playing`,
entering `Pausing` ends in `Paused`, entering `Stopping` ends in
`Stopped`. -/
theorem claim4_commands_settle (e : Engine) (cs : List TransportCmd)
    (h : isSettled e.state) :
    isSettled (applyCmds e cs).state
    ∧ (changeState e .Starting).state = .Playing
    ∧ (changeState e .Pausing).state = .Paused
    ∧ (changeState e .Stopping).state = .Stopped := by
  have hne : ∀ s, transRank s = 1 → e.state ≠ s := by
    intro s hs
    rcases h with h1 | h1 | h1 <;> rw [h1] <;> intro hcon <;>
      rw [← hcon] at hs <;> simp [transRank] at hs
  refine ⟨applyCmds_settled cs e h, ?_, ?_, ?_⟩
  · rw [changeState_Starting e (hne _ (by simp [transRank]))]
  · rw [changeState_Pausing e (hne _ (by simp [transRank]))]
  · rw [changeState_Stopping e (hne _ (by simp [transRank]))]

/-- Witness for claim C4 at a concrete engine and the command sequence
play then stop. -/
theorem claim4_witness :
    isSettled (applyCmds ⟨.Stopped, false, [⟨false, 0, false, false⟩]⟩
        [.play, .stop]).state
    ∧ (changeState (⟨.Stopped, false, [⟨false, 0, false, false⟩]⟩ : Engine)
        .Starting).state = .Playing
    ∧ (changeState (⟨.Stopped, false, [⟨false, 0, false, false⟩]⟩ : Engine)
        .Pausing).state = .Paused
    ∧ (changeState (⟨.Stopped, false, [⟨false, 0, false, false⟩]⟩ : Engine)
        .Stopping).state = .Stopped :=
  claim4_commands_settle ⟨.Stopped, false, [⟨false, 0, false, false⟩]⟩
    [.play, .stop] (Or.inl rfl)

/-! Lemmas about the mixer. -/

/-- Accumulation keeps the shorter of the two buffer lengths. -/
theorem addInto_length (buf src : List ℚ) (g : ℚ) :
    (addInto buf src g).length = min buf.length src.length := by
  simp [addInto]

/-- A track whose routing flag does not match the predicate is skipped. -/
theorem mixStep_skip {p : Bool} {t : MixTrack} (n : Nat) (buf : List ℚ)
    (h : t.isPercussive ≠ p) : mixStep p n buf t = buf := by
  simp only [mixStep]
  rw [if_pos h]

/-- The mixer fold preserves the buffer length. -/
theorem mixFold_length (p : Bool) (n : Nat) :
    ∀ (ts : List MixTrack) (buf : List ℚ), buf.length = n →
      (List.foldl (mixStep p n) buf ts).length = n := by
  intro ts
  induction ts with
  | nil => intro buf h; exact h
  | cons t ts2 ih =>
      intro buf h
      simp only [List.foldl_cons]
      apply ih
      by_cases hc : t.isPercussive ≠ p
      · rw [mixStep_skip n buf hc]; exact h
      · simp only [mixStep]
        rw [if_neg hc, addInto_length]
        simp [h]

/-- When no track matches the predicate, the mixer fold returns the buffer
unchanged. -/
theorem mixFold_skip_all (p : Bool) (n : Nat) :
    ∀ (ts : List MixTrack) (buf : List ℚ),
      (∀ t ∈ ts, t.isPercussive ≠ p) →
      List.foldl (mixStep p n) buf ts = buf := by
  intro ts
  induction ts with
  | nil => intro buf _; rfl
  | cons t ts2 ih =>
      intro buf h
      simp only [List.foldl_cons]
      rw [mixStep_skip n buf (h t (by simp))]
      exact ih buf (fun u hu => h u (by simp [hu]))

/-- A successful `processBlock` always delivers a block of exactly the
requested length (cleared when unprepared, fully retrieved otherwise). -/
theorem processBlockEx_some_length (pb : Bool) (env : StretchEnv)
    (n fuel : Nat) (r : RenderOut)
    (h : processBlockEx pb env n fuel = some r) : r.samples.length = n := by
  simp only [processBlockEx] at h
  split at h
  · injection h with h2
    subst h2
    simp
  · rw [Option.map_eq_some'] at h
    obtain ⟨k, hk, hr⟩ := h
    subst hr
    have hth : n ≤ env.avail k := feedLoop_avail fuel 0 k hk
    simp [min_eq_left hth]

/-- Claim C5: the two mixer invocations have disjoint per-track
contributions — a percussive track contributes nothing to the mix invoked
with the melodic predicate (removing it from the track list leaves that mix
unchanged), and a melodic track contributes nothing to the mix invoked with
the percussive predicate. -/
theorem claim5_mixer_routing (ts1 ts2 : List MixTrack) (t : MixTrack)
    (n : Nat) :
    (t.isPercussive = true →
      mixTracksIntoBuffer false (ts1 ++ t :: ts2) n =
        mixTracksIntoBuffer false (ts1 ++ ts2) n)
    ∧ (t.isPercussive = false →
      mixTracksIntoBuffer true (ts1 ++ t :: ts2) n =
        mixTracksIntoBuffer true (ts1 ++ ts2) n) := by
  constructor <;> intro h <;>
    simp only [mixTracksIntoBuffer, List.foldl_append, List.foldl_cons] <;>
    rw [mixStep_skip n _ (by rw [h]; simp)]

/-- Witness for claim C5 at a concrete pair of tracks. -/
theorem claim5_witness :
    mixTracksIntoBuffer false
        ([⟨false, false, 1, fun _ => 2⟩] ++
          (⟨true, false, 1, fun _ => 3⟩ : MixTrack) :: []) 2 =
      mixTracksIntoBuffer false ([⟨false, false, 1, fun _ => 2⟩] ++ []) 2 :=
  (claim5_mixer_routing [⟨false, false, 1, fun _ => 2⟩] []
    ⟨true, false, 1, fun _ => 3⟩ 2).1 rfl

/-- Claim C6: a completed render entry point call returns a block of exactly
the requested length, all silence whenever the transport is not `Playing`;
and the mixer always returns a buffer of exactly the requested length,
which is all silence when no track matches the predicate. -/
theorem claim6_buffers_fully_populated
    (hasSource : Bool) (st : TransportState) (prepared : Bool)
    (env : StretchEnv) (n fuel : Nat) (out : List ℚ)
    (tracks : List MixTrack) (percussive : Bool)
    (h : getNextAudioBlockEx hasSource st prepared env n fuel = some out) :
    out.length = n
    ∧ (st ≠ .Playing → out = List.replicate n 0)
    ∧ (mixTracksIntoBuffer percussive tracks n).length = n
    ∧ ((∀ t ∈ tracks, t.isPercussive ≠ percussive) →
        mixTracksIntoBuffer percussive tracks n = List.replicate n 0) := by
  refine ⟨?_, ?_, ?_, ?_⟩
  · simp only [getNextAudioBlockEx] at h
    split at h
    · injection h with h2
      subst h2
      simp
    · rw [Option.map_eq_some'] at h
      obtain ⟨r, hr, hout⟩ := h
      subst hout
      exact processBlockEx_some_length _ env n fuel r hr
  · intro hst
    simp only [getNextAudioBlockEx] at h
    rw [if_pos (Or.inr hst)] at h
    injection h with h2
    subst h2
    rfl
  · exact mixFold_length percussive n tracks _ (by simp)
  · intro hall
    exact mixFold_skip_all percussive n tracks _ hall

/-- Witness for claim C6 at a stopped transport and a one-track list. -/
theorem claim6_witness :
    (List.replicate 3 (0 : ℚ)).length = 3
    ∧ (TransportState.Stopped ≠ TransportState.Playing →
        List.replicate 3 (0 : ℚ) = List.replicate 3 0)
    ∧ (mixTracksIntoBuffer false [⟨true, false, 1, fun _ => 7⟩] 3).length = 3
    ∧ ((∀ t ∈ ([⟨true, false, 1, fun _ => 7⟩] : List MixTrack),
          t.isPercussive ≠ false) →
        mixTracksIntoBuffer false [⟨true, false, 1, fun _ => 7⟩] 3 =
          List.replicate 3 0) :=
  claim6_buffers_fully_populated true .Stopped true ⟨fun _ => 0, fun _ => 0⟩
    3 0 (List.replicate 3 0) [⟨true, false, 1, fun _ => 7⟩] false rfl

/-- Claim C7: for every nonnegative elapsed time, positive reference tempo
and positive beats-per-bar, the timeline formatter returns the 1-based bar
`floor(elapsedSeconds / secondsPerBar) + 1` and the 1-based beat
`floor(elapsedSeconds / secondsPerBeat) mod beatsPerBar + 1` with
`secondsPerBeat = 60 / referenceBPM` and
`secondsPerBar = secondsPerBeat * beatsPerBar`; in particular at
`elapsedSeconds = 125.4`, `referenceBPM = 120`, `beatsPerBar = 4` it returns
bar 63, beat 3 and the time text `2:05.400`. -/
theorem claim7_timeline_formatting :
    (∀ (s bpm : ℚ) (b : ℤ), 0 ≤ s → 0 < bpm → 0 < b →
      (getFormattedTimeline s bpm b).bar = ⌊s / (60 / bpm * (b : ℚ))⌋ + 1
      ∧ (getFormattedTimeline s bpm b).beatInBar = ⌊s / (60 / bpm)⌋ % b + 1)
    ∧ (getFormattedTimeline (mkRat 627 5) 120 4).bar = 63
    ∧ (getFormattedTimeline (mkRat 627 5) 120 4).beatInBar = 3
    ∧ (getFormattedTimeline (mkRat 627 5) 120 4).timeText = "2:05.400" := by
  have hmain : ∀ (s bpm : ℚ) (b : ℤ), 0 ≤ s → 0 < bpm → 0 < b →
      (getFormattedTimeline s bpm b).bar = ⌊s / (60 / bpm * (b : ℚ))⌋ + 1
      ∧ (getFormattedTimeline s bpm b).beatInBar = ⌊s / (60 / bpm)⌋ % b + 1 := by
    intro s bpm b hs hbpm hb
    have hspb : (0:ℚ) < 60 / bpm := div_pos (by norm_num) hbpm
    have hsbar : (0:ℚ) < 60 / bpm * (b : ℚ) :=
      mul_pos hspb (by exact_mod_cast hb)
    constructor
    · simp only [getFormattedTimeline]
      rw [cIntTrunc_eq_floor (div_nonneg hs hsbar.le)]
    · simp only [getFormattedTimeline]
      rw [cIntTrunc_eq_floor (div_nonneg hs hspb.le),
        cMod_eq_emod (Int.floor_nonneg.mpr (div_nonneg hs hspb.le)) hb.le]
  refine ⟨hmain, ?_, ?_, ?_⟩
  · have e1 : cIntTrunc (mkRat 627 5 / (60 / 120 * ((4:ℤ) : ℚ))) = 62 :=
      cIntTrunc_eq_of (by norm_num [Rat.mkRat_eq_div])
        (by norm_num [Rat.mkRat_eq_div]) (by norm_num [Rat.mkRat_eq_div])
    simp only [getFormattedTimeline]
    rw [e1]
    decide
  · have e2 : cIntTrunc (mkRat 627 5 / (60 / 120)) = 250 :=
      cIntTrunc_eq_of (by norm_num [Rat.mkRat_eq_div])
        (by norm_num [Rat.mkRat_eq_div]) (by norm_num [Rat.mkRat_eq_div])
    simp only [getFormattedTimeline]
    rw [e2]
    decide
  · have e3 : cIntTrunc (mkRat 627 5) = 125 :=
      cIntTrunc_eq_of (by norm_num [Rat.mkRat_eq_div])
        (by norm_num [Rat.mkRat_eq_div]) (by norm_num [Rat.mkRat_eq_div])
    have e4 : cIntTrunc (mkRat 627 5 * 1000) = 125400 :=
      cIntTrunc_eq_of (by norm_num [Rat.mkRat_eq_div])
        (by norm_num [Rat.mkRat_eq_div]) (by norm_num [Rat.mkRat_eq_div])
    simp only [getFormattedTimeline]
    rw [e3, e4]
    decide

/-- Witness for claim C7 at elapsed time zero, reference tempo 120 and four
beats per bar. -/
theorem claim7_witness :
    (getFormattedTimeline 0 120 4).bar = ⌊(0:ℚ) / (60 / 120 * ((4:ℤ) : ℚ))⌋ + 1
    ∧ (getFormattedTimeline 0 120 4).beatInBar =
        ⌊(0:ℚ) / (60 / 120)⌋ % 4 + 1 :=
  claim7_timeline_formatting.1 0 120 4 (le_refl 0) (by decide) (by decide)

/-- Claim C8 counterexample: in the advance variant the timeline tick
applies the raw slider value with no clamp — with ratio `-1` and wall-clock
delta `1` the timeline moves to `-1`, i.e. not the clamped advance by `1`
the claim requires, and progress is negative. -/
theorem claim8_counterexample :
    (advTimelineStep ⟨true, 0, 120, 4, -1, []⟩ 1).timelineSeconds = -1
    ∧ ¬ (0:ℚ) <
        (advTimelineStep ⟨true, 0, 120, 4, -1, []⟩ 1).timelineSeconds := by
  have h : (advTimelineStep ⟨true, 0, 120, 4, -1, []⟩ 1).timelineSeconds
      = -1 := by
    simp [advTimelineStep]
  exact ⟨h, by rw [h]; norm_num⟩

/-- Claim C8 (amended): in the TransportTimeLine variant the effective tempo
is `referenceBPM * r` for `r > 0` and `referenceBPM` for `r ≤ 0`, the tick
advances by `delta * r` for `r > 0` and by `delta` for `r ≤ 0`, and a
positive wall-clock delta always yields strictly positive progress; the
advance-variant tick instead applies the raw slider value without any
clamp. -/
theorem claim8_tempo_clamp_per_variant (origT v t d : ℚ) (s : AdvState) :
    (0 < v → getAdjustedTempo origT v = origT * v)
    ∧ (v ≤ 0 → getAdjustedTempo origT v = origT)
    ∧ (0 < v → ttTimerAdvance t d v = t + d * v)
    ∧ (v ≤ 0 → ttTimerAdvance t d v = t + d)
    ∧ (0 < d → t < ttTimerAdvance t d v)
    ∧ (s.transportRunning = true →
        (advTimelineStep s d).timelineSeconds =
          s.timelineSeconds + d * s.sliderValue) := by
  refine ⟨?_, ?_, ?_, ?_, ?_, ?_⟩
  · intro hv
    simp only [getAdjustedTempo]
    rw [if_neg (not_le.mpr hv)]
  · intro hv
    simp only [getAdjustedTempo]
    rw [if_pos hv, mul_one]
  · intro hv
    simp only [ttTimerAdvance]
    rw [if_neg (not_le.mpr hv)]
  · intro hv
    simp only [ttTimerAdvance]
    rw [if_pos hv, mul_one]
  · intro hd
    simp only [ttTimerAdvance]
    by_cases hv : v ≤ 0
    · rw [if_pos hv, mul_one]
      linarith
    · rw [if_neg hv]
      have hdv : 0 < d * v := mul_pos hd (lt_of_not_le hv)
      linarith
  · intro hr
    simp only [advTimelineStep]
    rw [if_pos hr]

/-- Witness for claim C8 at ratios 2 and -1 with unit delta. -/
theorem claim8_witness :
    getAdjustedTempo 120 2 = 120 * 2
    ∧ getAdjustedTempo 120 (-1) = 120
    ∧ ttTimerAdvance 0 1 2 = 0 + 1 * 2
    ∧ ttTimerAdvance 0 1 (-1) = 0 + 1
    ∧ (0:ℚ) < ttTimerAdvance 0 1 (-1)
    ∧ (advTimelineStep ⟨true, 0, 120, 4, 1, []⟩ 1).timelineSeconds =
        0 + 1 * 1 :=
  ⟨(claim8_tempo_clamp_per_variant 120 2 0 1 ⟨true, 0, 120, 4, 1, []⟩).1
      (by norm_num),
   (claim8_tempo_clamp_per_variant 120 (-1) 0 1 ⟨true, 0, 120, 4, 1, []⟩).2.1
      (by norm_num),
   (claim8_tempo_clamp_per_variant 120 2 0 1 ⟨true, 0, 120, 4, 1, []⟩).2.2.1
      (by norm_num),
   (claim8_tempo_clamp_per_variant 120 (-1) 0 1
      ⟨true, 0, 120, 4, 1, []⟩).2.2.2.1 (by norm_num),
   (claim8_tempo_clamp_per_variant 120 (-1) 0 1
      ⟨true, 0, 120, 4, 1, []⟩).2.2.2.2.1 (by norm_num),
   (claim8_tempo_clamp_per_variant 120 1 0 1
      ⟨true, 0, 120, 4, 1, []⟩).2.2.2.2.2 rfl⟩

/-! Lemmas about the quantized-start machinery of the advance variant. -/

/-- The timeline advancement leaves the track list untouched. -/
theorem advTimelineStep_tracks (s : AdvState) (d : ℚ) :
    (advTimelineStep s d).tracks = s.tracks := by
  simp only [advTimelineStep]
  split <;> rfl

/-- The timeline advancement commutes with replacing the track list. -/
theorem advTimelineStep_setTracks (s : AdvState) (ts : List AdvTrack) (d : ℚ) :
    advTimelineStep { s with tracks := ts } d =
      { advTimelineStep s d with tracks := ts } := by
  simp only [advTimelineStep]
  by_cases hr : s.transportRunning = true
  · rw [if_pos hr, if_pos hr]
  · rw [if_neg hr, if_neg hr]

/-- The computed beat index does not depend on the track list. -/
theorem beatIndex_setTracks (s : AdvState) (ts : List AdvTrack) :
    beatIndex { s with tracks := ts } = beatIndex s := rfl

/-- Whether a run of ticks crosses a bar boundary does not depend on the
track list. -/
theorem traceHitsBar_setTracks :
    ∀ (ds : List ℚ) (s : AdvState) (ts : List AdvTrack),
      traceHitsBar { s with tracks := ts } ds = traceHitsBar s ds := by
  intro ds
  induction ds with
  | nil => intro s ts; rfl
  | cons d ds2 ih =>
      intro s ts
      simp only [traceHitsBar]
      rw [advTimelineStep_setTracks, beatIndex_setTracks, ih]

/-- `checkQueuedTracks` does not change the timeline, so the bar-boundary
trace is unaffected by it. -/
theorem traceHitsBar_checkQueued (s : AdvState) (ds : List ℚ) :
    traceHitsBar (checkQueuedTracks s) ds = traceHitsBar s ds := by
  simp only [checkQueuedTracks]
  split
  · rw [traceHitsBar_setTracks]
  · rfl

/-- After any run of timer ticks, a track has been started and its queued
flag cleared exactly when it was queued and some tick of the run observed
beat index 1; all other tracks are untouched. -/
theorem runTicks_tracks_spec :
    ∀ (ds : List ℚ) (s : AdvState),
      (runTicks s ds).tracks =
        s.tracks.map (fun t =>
          if t.queuedToPlay && traceHitsBar s ds then startQueuedTrack t
          else t) := by
  intro ds
  induction ds with
  | nil =>
      intro s
      simp [runTicks, traceHitsBar]
  | cons d ds2 ih =>
      intro s
      have hrun : runTicks s (d :: ds2) =
          runTicks (checkQueuedTracks (advTimelineStep s d)) ds2 := rfl
      rw [hrun, ih]
      rw [traceHitsBar_checkQueued]
      by_cases hb : beatIndex (advTimelineStep s d) = 1
      · have hcq : (checkQueuedTracks (advTimelineStep s d)).tracks =
            (advTimelineStep s d).tracks.map
              (fun t => if t.queuedToPlay then startQueuedTrack t else t) := by
          simp only [checkQueuedTracks]
          rw [if_pos hb]
        rw [hcq, advTimelineStep_tracks, List.map_map]
        have hhit : traceHitsBar s (d :: ds2) = true := by
          simp only [traceHitsBar]
          rw [decide_eq_true hb]
          simp
        rw [hhit]
        congr 1
        funext t
        by_cases hq : t.queuedToPlay <;>
          simp [Function.comp, hq, startQueuedTrack]
      · have hcq : checkQueuedTracks (advTimelineStep s d) =
            advTimelineStep s d := by
          simp only [checkQueuedTracks]
          rw [if_neg hb]
        rw [hcq, advTimelineStep_tracks]
        have hmiss : traceHitsBar s (d :: ds2) =
            traceHitsBar (advTimelineStep s d) ds2 := by
          simp only [traceHitsBar]
          rw [decide_eq_false hb]
          simp
        rw [hmiss]

/-- Claim C9: a queued track is never started while the computed beat index
differs from 1 (`checkQueuedTracks` is the identity then); when the beat
index equals 1 every queued track is started and its flag cleared; the
check runs exactly once per timer tick; and over any run of ticks a track
ends up started with its flag cleared exactly when some tick of the run
observed beat index 1. -/
theorem claim9_quantized_start (s : AdvState) (ds : List ℚ) :
    (beatIndex s ≠ 1 → checkQueuedTracks s = s)
    ∧ (beatIndex s = 1 →
        (checkQueuedTracks s).tracks = s.tracks.map (fun t =>
          if t.queuedToPlay then startQueuedTrack t else t))
    ∧ (∀ d : ℚ, timerCallbackAdv s d = checkQueuedTracks (advTimelineStep s d))
    ∧ (runTicks s ds).tracks = s.tracks.map (fun t =>
        if t.queuedToPlay && traceHitsBar s ds then startQueuedTrack t
        else t) := by
  refine ⟨?_, ?_, fun d => rfl, runTicks_tracks_spec ds s⟩
  · intro h
    simp only [checkQueuedTracks]
    rw [if_neg h]
  · intro h
    simp only [checkQueuedTracks]
    rw [if_pos h]

/-- Witness for claim C9: off a bar boundary (beat index 3) the check does
nothing to a queued track; on a bar boundary (beat index 1) the queued
track starts and its flag clears. -/
theorem claim9_witness :
    checkQueuedTracks ⟨true, 30, 60, 4, 1, [⟨true, false, false, false⟩]⟩ =
      ⟨true, 30, 60, 4, 1, [⟨true, false, false, false⟩]⟩
    ∧ (checkQueuedTracks
        ⟨true, 0, 60, 4, 1, [⟨true, false, false, false⟩]⟩).tracks =
      ([⟨true, false, false, false⟩] : List AdvTrack).map (fun t =>
        if t.queuedToPlay then startQueuedTrack t else t) :=
  ⟨(claim9_quantized_start ⟨true, 30, 60, 4, 1, [⟨true, false, false, false⟩]⟩
      []).1
      (by
        have h1 : ((30:ℚ) / ((60:ℚ) / (60:ℚ))) = 30 := by norm_num
        simp only [beatIndex]
        rw [h1]
        decide),
   (claim9_quantized_start ⟨true, 0, 60, 4, 1, [⟨true, false, false, false⟩]⟩
      []).2.1
      (by
        have h1 : ((0:ℚ) / ((60:ℚ) / (60:ℚ))) = 0 := by norm_num
        simp only [beatIndex]
        rw [h1]
        decide)⟩

/-- Claim C10: setting the shared tempo slider to `v` applies the inverted
ratio `2 - v` to both time-stretch processors, while the running timeline
tick advances by `delta * v` using the raw value; the two factors agree
exactly at `v = 1` and deviate from 1 by opposite amounts elsewhere. -/
theorem claim10_tempo_slider_inversion (v d : ℚ) (p : ProcPair)
    (s : AdvState) :
    (tempoSliderChanged v p).drumTempo = 2 - v
    ∧ (tempoSliderChanged v p).musicalTempo = 2 - v
    ∧ (s.transportRunning = true →
        (advTimelineStep s d).timelineSeconds =
          s.timelineSeconds + d * s.sliderValue)
    ∧ ((2 - v = v) ↔ v = 1)
    ∧ (2 - v) - 1 = -(v - 1) := by
  refine ⟨rfl, rfl, ?_, ?_, by ring⟩
  · intro hr
    simp only [advTimelineStep]
    rw [if_pos hr]
  · constructor <;> intro h <;> linarith

/-- Witness for claim C10 at slider value 1 on a running timeline. -/
theorem claim10_witness :
    (tempoSliderChanged 1 ⟨1, 1⟩).drumTempo = 2 - 1
    ∧ (tempoSliderChanged 1 ⟨1, 1⟩).musicalTempo = 2 - 1
    ∧ (advTimelineStep ⟨true, 0, 120, 4, 1, []⟩ 1).timelineSeconds =
        0 + 1 * 1
    ∧ (((2:ℚ) - 1 = 1) ↔ (1:ℚ) = 1)
    ∧ ((2:ℚ) - 1) - 1 = -(1 - 1) :=
  ⟨(claim10_tempo_slider_inversion 1 1 ⟨1, 1⟩ ⟨true, 0, 120, 4, 1, []⟩).1,
   (claim10_tempo_slider_inversion 1 1 ⟨1, 1⟩ ⟨true, 0, 120, 4, 1, []⟩).2.1,
   (claim10_tempo_slider_inversion 1 1 ⟨1, 1⟩
      ⟨true, 0, 120, 4, 1, []⟩).2.2.1 rfl,
   (claim10_tempo_slider_inversion 1 1 ⟨1, 1⟩ ⟨true, 0, 120, 4, 1, []⟩).2.2.2.1,
   (claim10_tempo_slider_inversion 1 1 ⟨1, 1⟩
      ⟨true, 0, 120, 4, 1, []⟩).2.2.2.2⟩
